import Mathlib

/-!
Verification of the farm-planner decision engine.

This file gives a shallow embedding, in Lean 4, of the core planning code of
the farm-planner repository (`src/models.py`, `src/rules.py`,
`src/price_provider.py`, `src/price_validation.py`, `src/sanity.py`,
`src/calc.py`, `src/profit.py`, `src/scenarios.py`, `src/planner.py`) and
proves or refutes the specified properties of that code.

Modelling conventions:
* Python floats are modelled as exact rationals (`ℚ`); float literals such as
  `0.10`, `0.8`, `1.2` become the exact rationals `10/100`, `80/100`, `120/100`.
* Python dicts keyed by strings are modelled as association lists
  (`List (String × _)`) looked up by `lookupStr`, which returns the first
  binding, matching dict behaviour under the unique-key invariant.
* File and network reads (`data/crops.json`, `data/prices_lv.csv`, the EU
  price feed) are modelled as explicit parameters holding the parsed data the
  Python code would have read.
* A CSV price cell that fails `float(...)` parsing is modelled as `none`
  inside the table entry.
-/

namespace FarmPlanner

/-- First-binding association-list lookup, the model of Python dict access. -/
def lookupStr {α : Type} (k : String) : List (String × α) → Option α
  | [] => none
  | (k₁, v) :: rest => if k₁ = k then some v else lookupStr k rest

/-- Soil types of `models.SoilType` (smilts, mālaina, kūdra, mitra). -/
inductive SoilType where
  | smilts
  | mals
  | kudra
  | mitra
deriving DecidableEq, Repr

/-- `models.FieldModel` (the fields the planner reads). -/
structure FieldModel where
  id : Nat
  name : String
  area_ha : ℚ
  soil : SoilType
  owner_user_id : Nat
  rent_eur_ha : ℚ := 0
  ph : Option ℚ := none
deriving DecidableEq, Repr

/-- `models.PlantingRecord`. -/
structure PlantingRecord where
  field_id : Nat
  year : ℤ
  crop : String
  owner_user_id : Nat
deriving DecidableEq, Repr

/-- `models.CropModel` (the fields the planner reads; the yield map may hold
`none` for a null JSON yield entry). -/
structure CropModel where
  name : String
  group : String
  sow_months : List Nat
  yield_t_ha : List (SoilType × Option ℚ)
  cost_eur_ha : ℚ
  price_eur_t : Option ℚ := none
  is_market_crop : Bool := true
  ph_range : Option (ℚ × ℚ) := none
deriving DecidableEq, Repr

/-- Association-list lookup on the soil-keyed yield map. -/
def lookupSoil (s : SoilType) : List (SoilType × Option ℚ) → Option (Option ℚ)
  | [] => none
  | (s₁, v) :: rest => if s₁ = s then some v else lookupSoil s rest

/-! ## Rotation rules (`src/rules.py`) -/

/-- The fixed rapeseed synonym set of `rules.get_allowed_crops`. -/
def rapeseedVariants : List String := ["Rapsis", "Rapsis (ziemas)", "Rapsis (vasaras)"]

/-- `rules.get_allowed_crops`.  The source sorts the field history by year
(descending) between the two filters; the sort does not change which records
are present, hence which crops end up forbidden, so it is omitted here. -/
def get_allowed_crops (planting_history : List PlantingRecord)
    (available_crops : List String) (target_year : ℤ) (field_id : Nat) :
    List String :=
  let field_history := planting_history.filter (fun p => p.field_id = field_id)
  let field_history := field_history.filter (fun p => available_crops.contains p.crop)
  let forbidden₁ := (field_history.filter (fun r => target_year - 1 ≤ r.year)).map (·.crop)
  let rapeseed_years := (field_history.filter
      (fun r => rapeseedVariants.contains r.crop ∧ target_year - 3 ≤ r.year)).map (·.year)
  let forbidden :=
    if rapeseed_years.isEmpty then forbidden₁
    else forbidden₁ ++ rapeseedVariants.filter (fun v => available_crops.contains v)
  available_crops.filter (fun c => ¬ forbidden.contains c)

theorem mem_forbidden_of_recent {history : List PlantingRecord}
    {available : List String} {target_year : ℤ} {field_id : Nat}
    {r : PlantingRecord} (hr : r ∈ history) (hf : r.field_id = field_id)
    (hcand : r.crop ∈ available) (hy : target_year - 1 ≤ r.year) :
    r.crop ∉ get_allowed_crops history available target_year field_id := by
  intro hmem
  unfold get_allowed_crops at hmem
  simp only [List.mem_filter, decide_eq_true_eq] at hmem
  apply hmem.2
  have hforb₁ : r.crop ∈ List.map (fun x => x.crop)
      (List.filter (fun x => decide (target_year - 1 ≤ x.year))
        (List.filter (fun p => available.contains p.crop)
          (List.filter (fun p => decide (p.field_id = field_id)) history))) := by
    simp only [List.mem_map, List.mem_filter, decide_eq_true_eq]
    exact ⟨r, ⟨⟨⟨hr, hf⟩, List.elem_eq_true_of_mem hcand⟩, hy⟩, rfl⟩
  apply List.elem_eq_true_of_mem
  split
  · exact hforb₁
  · exact List.mem_append_left _ hforb₁

/-- C2: a crop from the candidate list planted on the field in year `Y-1` is
not allowed in year `Y` (no immediate repeat).  Claim statement from
`rules.get_allowed_crops`. -/
theorem no_immediate_repeat (history : List PlantingRecord)
    (available : List String) (target_year : ℤ) (field_id : Nat) (c : String)
    (hcand : c ∈ available)
    (hplanted : ∃ r ∈ history, r.field_id = field_id ∧ r.year = target_year - 1 ∧ r.crop = c) :
    c ∉ get_allowed_crops history available target_year field_id := by
  obtain ⟨r, hr, hf, hy, hc⟩ := hplanted
  have := mem_forbidden_of_recent hr hf (hc ▸ hcand) (le_of_eq hy.symm)
  simpa [hc] using this

/-- C2 witness: wheat planted in 2024 on field 1 is excluded for 2025. -/
theorem no_immediate_repeat_witness :
    "Kvieši" ∈ ["Kvieši", "Mieži"] ∧
    "Kvieši" ∉ get_allowed_crops [⟨1, 2024, "Kvieši", 7⟩] ["Kvieši", "Mieži"] 2025 1 := by
  refine ⟨by simp, no_immediate_repeat _ _ _ _ _ (by simp) ?_⟩
  exact ⟨⟨1, 2024, "Kvieši", 7⟩, by simp, rfl, by norm_num, rfl⟩

/-- C3: if any rapeseed variant from the candidate list was planted on the
field in `target_year-3 .. target_year-1`, every rapeseed variant in the
candidate list is excluded (cross-variant three-year window), per
`rules.get_allowed_crops`. -/
theorem rapeseed_window (history : List PlantingRecord)
    (available : List String) (target_year : ℤ) (field_id : Nat) (v w : String)
    (hv : v ∈ rapeseedVariants) (hvc : v ∈ available)
    (hw : w ∈ rapeseedVariants) (hwc : w ∈ available)
    (hplanted : ∃ r ∈ history, r.field_id = field_id ∧ r.crop = v ∧
      target_year - 3 ≤ r.year ∧ r.year ≤ target_year - 1) :
    w ∉ get_allowed_crops history available target_year field_id := by
  obtain ⟨r, hr, hf, hc, hy₃, _⟩ := hplanted
  intro hmem
  unfold get_allowed_crops at hmem
  simp only [List.mem_filter, decide_eq_true_eq] at hmem
  apply hmem.2
  apply List.elem_eq_true_of_mem
  have hrmem : r ∈ List.filter
      (fun x => decide (rapeseedVariants.contains x.crop = true ∧ target_year - 3 ≤ x.year))
      (List.filter (fun p => available.contains p.crop)
        (List.filter (fun p => decide (p.field_id = field_id)) history)) := by
    simp only [List.mem_filter, decide_eq_true_eq]
    exact ⟨⟨⟨hr, by simpa using hf⟩,
      List.elem_eq_true_of_mem (hc ▸ hvc)⟩,
      List.elem_eq_true_of_mem (hc ▸ hv), hy₃⟩
  split
  · rename_i hempty
    rw [List.isEmpty_iff, List.map_eq_nil_iff] at hempty
    rw [hempty] at hrmem
    exact absurd hrmem (List.not_mem_nil r)
  · apply List.mem_append_right
    simp only [List.mem_filter]
    exact ⟨hw, List.elem_eq_true_of_mem hwc⟩

/-- C3 witness: winter rapeseed planted in 2023 blocks spring rapeseed in 2025. -/
theorem rapeseed_window_witness :
    "Rapsis (vasaras)" ∉
      get_allowed_crops [⟨1, 2023, "Rapsis (ziemas)", 7⟩]
        ["Kvieši", "Rapsis (ziemas)", "Rapsis (vasaras)"] 2025 1 := by
  refine rapeseed_window _ _ _ _ "Rapsis (ziemas)" _ (by simp [rapeseedVariants])
    (by simp) (by simp [rapeseedVariants]) (by simp) ?_
  exact ⟨⟨1, 2023, "Rapsis (ziemas)", 7⟩, by simp, rfl, rfl, by norm_num, by norm_num⟩

/-! ## Price resolution (`src/price_provider.py`)

`get_price_for_crop` consults the manual CSV table (`data/prices_lv.csv`,
parsed by `prices.load_prices_csv`) and the base catalog read from
`data/crops.json`.  Both files are passed in as parameters here.  A CSV table
entry is `(crop_name, some price)` for a parseable price cell and
`(crop_name, none)` for a cell `float(...)` fails to parse. -/

/-- One item of the parsed `data/crops.json` array, as read by
`price_provider._load_base_catalog` and `price_validation._get_crop_group`
(a missing key becomes `none`). -/
structure CropsJsonItem where
  name : Option String := none
  group : Option String := none
  price_eur_t : Option ℚ := none
deriving DecidableEq, Repr

/-- One entry of the catalog built by `price_provider._load_base_catalog`. -/
structure CatalogEntry where
  name : String
  group : String
  price_eur_t : Option ℚ
deriving DecidableEq, Repr

/-- `price_provider._load_base_catalog`: keeps the items whose `name` and
`group` are present and truthy (non-empty). -/
def _load_base_catalog (file : List CropsJsonItem) : List CatalogEntry :=
  file.filterMap (fun it =>
    match it.name, it.group with
    | some n, some g => if n = "" ∨ g = "" then none else some ⟨n, g, it.price_eur_t⟩
    | _, _ => none)

/-- The price one base-catalog entry contributes to a group average: the CSV
price if its cell parses, else the catalog price when positive (the loop body
of `price_provider._group_average_price`). -/
def groupPriceValue (prices_csv : List (String × Option ℚ)) (e : CatalogEntry) : Option ℚ :=
  match lookupStr e.name prices_csv with
  | some (some p) => some p
  | _ =>
    match e.price_eur_t with
    | some b => if 0 < b then some b else none
    | none => none

/-- `price_provider._group_average_price`. -/
def _group_average_price (target_group : String)
    (prices_csv : List (String × Option ℚ)) (base_catalog : List CatalogEntry) :
    Option ℚ :=
  let values := (base_catalog.filter (fun e => e.group = target_group)).filterMap
    (groupPriceValue prices_csv)
  if values.isEmpty then none else some (values.sum / values.length)

/-- `price_provider.get_price_for_crop`: returns
(price, source label, confidence). -/
def get_price_for_crop (crop : CropModel)
    (prices_csv : List (String × Option ℚ)) (base_catalog : List CatalogEntry) :
    ℚ × String × String :=
  let tier₃ : ℚ × String × String :=
    match _group_average_price crop.group prices_csv base_catalog with
    | some avg => (avg, "Grupas vidējā cena", "low")
    | none => (0, "Grupas vidējā cena", "low")
  match lookupStr crop.name prices_csv with
  | some (some p) => (p, "LV cenu fails", "high")
  | _ =>
    match crop.price_eur_t with
    | some q => if 0 < q then (q, "Kultūru katalogs", "medium") else tier₃
    | none => tier₃

/-- The group-average tier as worded by the spec: the arithmetic mean of the
manual-or-catalog prices of all OTHER crops sharing the crop's group. -/
def specGroupAverageOthers (crop : CropModel)
    (prices_csv : List (String × Option ℚ)) (base_catalog : List CatalogEntry) :
    Option ℚ :=
  let values := (base_catalog.filter
      (fun e => e.group = crop.group ∧ e.name ≠ crop.name)).filterMap
    (groupPriceValue prices_csv)
  if values.isEmpty then none else some (values.sum / values.length)

theorem group_avg_eq_spec_others (crop : CropModel)
    (csv : List (String × Option ℚ)) (cat : List CatalogEntry)
    (hself : ∀ p, lookupStr crop.name csv ≠ some (some p))
    (hprice : ∀ q, crop.price_eur_t = some q → ¬ 0 < q)
    (hcons : ∀ e ∈ cat, e.name = crop.name → e.price_eur_t = crop.price_eur_t) :
    _group_average_price crop.group csv cat = specGroupAverageOthers crop csv cat := by
  have hvals : (cat.filter (fun e => e.group = crop.group)).filterMap (groupPriceValue csv)
      = (cat.filter (fun e => e.group = crop.group ∧ e.name ≠ crop.name)).filterMap
        (groupPriceValue csv) := by
    induction cat with
    | nil => rfl
    | cons e rest ih =>
      have ih₁ := ih (fun x hx => hcons x (List.mem_cons_of_mem e hx))
      by_cases hg : e.group = crop.group
      · by_cases hn : e.name = crop.name
        · have hnone : groupPriceValue csv e = none := by
            have hpn : e.price_eur_t = crop.price_eur_t :=
              hcons e (List.mem_cons_self e rest) hn
            unfold groupPriceValue
            split
            · rename_i p hp
              exact absurd (hn ▸ hp) (hself p)
            · rw [hpn]
              cases hq : crop.price_eur_t with
              | none => rfl
              | some q => simp [hprice q hq]
          simp [List.filter_cons, hg, hn, List.filterMap_cons, hnone, ih₁]
        · simp [List.filter_cons, hg, hn, List.filterMap_cons, ih₁]
      · simp [List.filter_cons, hg, ih₁]
  unfold _group_average_price specGroupAverageOthers
  rw [hvals]

/-- C4 counterexample: with a manual CSV table entry of −50 for the crop, the
resolved price is −50, so `get_price_for_crop` does not always return a value
that is ≥ 0. -/
theorem price_nonneg_counterexample :
    (get_price_for_crop ⟨"Kvieši", "Graudaugi", [9], [], 100, some 200, true, none⟩
      [("Kvieši", some (-50))] []).1 < 0 := by
  norm_num +decide [get_price_for_crop, lookupStr]

/-- C4 (amended): `get_price_for_crop` always returns a present price, chosen
by the stated strict priority (manual CSV entry → "high"; positive catalog
price → "medium"; group mean → "low"; else 0.0 → "low"), where — provided the
base catalog agrees with the crop's own catalog price — the group mean is the
spec's mean over the other crops of the group; the returned value is ≥ 0
whenever every parseable manual-table price is ≥ 0. -/
theorem price_resolution_amended (crop : CropModel)
    (csv : List (String × Option ℚ)) (cat : List CatalogEntry)
    (hcsv : ∀ n p, lookupStr n csv = some (some p) → 0 ≤ p)
    (hcons : ∀ e ∈ cat, e.name = crop.name → e.price_eur_t = crop.price_eur_t) :
    0 ≤ (get_price_for_crop crop csv cat).1
    ∧ (∀ p, lookupStr crop.name csv = some (some p) →
        get_price_for_crop crop csv cat = (p, "LV cenu fails", "high"))
    ∧ ((∀ p, lookupStr crop.name csv ≠ some (some p)) →
        ∀ q, crop.price_eur_t = some q → 0 < q →
        get_price_for_crop crop csv cat = (q, "Kultūru katalogs", "medium"))
    ∧ ((∀ p, lookupStr crop.name csv ≠ some (some p)) →
        (∀ q, crop.price_eur_t = some q → ¬ 0 < q) →
        (∀ a, specGroupAverageOthers crop csv cat = some a →
          get_price_for_crop crop csv cat = (a, "Grupas vidējā cena", "low"))
        ∧ (specGroupAverageOthers crop csv cat = none →
          get_price_for_crop crop csv cat = (0, "Grupas vidējā cena", "low"))) := by
  have havg : ∀ a, _group_average_price crop.group csv cat = some a → 0 ≤ a := by
    intro a ha
    simp only [_group_average_price] at ha
    split at ha
    · exact absurd ha (by simp)
    · injection ha with ha₁
      have hnonneg : ∀ x ∈ (cat.filter (fun e => e.group = crop.group)).filterMap
          (groupPriceValue csv), (0:ℚ) ≤ x := by
        intro x hx
        obtain ⟨e, _, he⟩ := List.mem_filterMap.mp hx
        unfold groupPriceValue at he
        split at he
        · rename_i p hp
          have h₀ := hcsv e.name p hp
          injection he with he₁
          exact he₁ ▸ h₀
        · split at he
          · split at he
            · rename_i hb
              injection he with he₁
              exact he₁ ▸ le_of_lt hb
            · exact absurd he (by simp)
          · exact absurd he (by simp)
      exact ha₁ ▸ div_nonneg (List.sum_nonneg hnonneg) (by positivity)
  constructor
  · unfold get_price_for_crop
    rcases hl : lookupStr crop.name csv with _ | op
    · rcases hq : crop.price_eur_t with _ | q
      · rcases hg : _group_average_price crop.group csv cat with _ | a
        · simp [hg]
        · simpa [hg] using havg a hg
      · by_cases hpos : 0 < q
        · simpa [hpos] using le_of_lt hpos
        · rcases hg : _group_average_price crop.group csv cat with _ | a
          · simp [hpos, hg]
          · simpa [hpos, hg] using havg a hg
    · rcases op with _ | p
      · rcases hq : crop.price_eur_t with _ | q
        · rcases hg : _group_average_price crop.group csv cat with _ | a
          · simp [hg]
          · simpa [hg] using havg a hg
        · by_cases hpos : 0 < q
          · simpa [hpos] using le_of_lt hpos
          · rcases hg : _group_average_price crop.group csv cat with _ | a
            · simp [hpos, hg]
            · simpa [hpos, hg] using havg a hg
      · simpa using hcsv crop.name p hl
  refine ⟨?_, ?_, ?_⟩
  · intro p hp
    simp [get_price_for_crop, hp]
  · intro hno q hq hpos
    unfold get_price_for_crop
    rcases hl : lookupStr crop.name csv with _ | op
    · simp [hq, hpos]
    · rcases op with _ | p
      · simp [hq, hpos]
      · exact absurd hl (hno p)
  · intro hno hq
    have heq : _group_average_price crop.group csv cat = specGroupAverageOthers crop csv cat :=
      group_avg_eq_spec_others crop csv cat hno hq hcons
    constructor
    · intro a ha
      unfold get_price_for_crop
      rcases hl : lookupStr crop.name csv with _ | op
      · rcases hq₂ : crop.price_eur_t with _ | q
        · simp [heq, ha]
        · simp [hq q hq₂, heq, ha]
      · rcases op with _ | p
        · rcases hq₂ : crop.price_eur_t with _ | q
          · simp [heq, ha]
          · simp [hq q hq₂, heq, ha]
        · exact absurd hl (hno p)
    · intro ha
      unfold get_price_for_crop
      rcases hl : lookupStr crop.name csv with _ | op
      · rcases hq₂ : crop.price_eur_t with _ | q
        · simp [heq, ha]
        · simp [hq q hq₂, heq, ha]
      · rcases op with _ | p
        · rcases hq₂ : crop.price_eur_t with _ | q
          · simp [heq, ha]
          · simp [hq q hq₂, heq, ha]
        · exact absurd hl (hno p)

/-- C4 witness: for a crop with catalog price 200, an empty manual table and
an empty base catalog the resolved price is ≥ 0. -/
theorem price_resolution_amended_witness :
    0 ≤ (get_price_for_crop ⟨"Kvieši", "Graudaugi", [9], [], 100, some 200, true, none⟩
      [] []).1 :=
  (price_resolution_amended _ [] []
    (fun n p h => by simp [lookupStr] at h)
    (fun e he _ => absurd he (List.not_mem_nil e))).1

/-! ## Profit computation (`src/calc.py` and `src/profit.py`) -/

/-- `calc.ProfitCalculationResult`. -/
structure ProfitCalculationResult where
  revenue_per_ha : ℚ
  revenue_total : ℚ
  cost_per_ha : ℚ
  cost_total : ℚ
  profit_per_ha : ℚ
  profit_total : ℚ
  yield_fallback_used : Bool := false
  yield_fallback_warning : Option String := none
deriving DecidableEq, Repr

/-- `calc.calculate_profit`.  The source returns `Optional` but never actually
returns `None`; the embedding is total.  Yield resolution: exact non-null soil
match (clamped at 0), else the mean of the positive non-null yields, else 0
with the fallback flag set. -/
def calculate_profit (field : FieldModel) (crop : CropModel) (rent_eur_ha : ℚ) :
    ProfitCalculationResult :=
  let yf : ℚ × Bool × Option String :=
    match lookupSoil field.soil crop.yield_t_ha with
    | some (some y) => (if y ≤ 0 then 0 else y, false, none)
    | _ =>
      let values := crop.yield_t_ha.filterMap (fun sv =>
        match sv.2 with
        | some y => if 0 < y then some y else none
        | none => none)
      if values.isEmpty then (0, true, some "Nav ražas datu šai augsnei (izmantots vidējais).")
      else (values.sum / values.length, true,
        some "Nav ražas datu šai augsnei (izmantots vidējais).")
  let yield_t_ha := yf.1
  let area := field.area_ha
  let price : ℚ :=
    match crop.price_eur_t with
    | some p => if 0 < p then p else 0
    | none => 0
  let cost : ℚ := if 0 < crop.cost_eur_ha then crop.cost_eur_ha else 0
  let revenue_per_ha := yield_t_ha * price
  let revenue_total := revenue_per_ha * area
  let cost_per_ha := cost + rent_eur_ha
  let cost_total := cost_per_ha * area
  let profit_per_ha := revenue_per_ha - cost_per_ha
  let profit_total := profit_per_ha * area
  { revenue_per_ha := revenue_per_ha, revenue_total := revenue_total,
    cost_per_ha := cost_per_ha, cost_total := cost_total,
    profit_per_ha := profit_per_ha, profit_total := profit_total,
    yield_fallback_used := yf.2.1, yield_fallback_warning := yf.2.2 }

/-- `profit._safe_yield_for_soil_with_fallback`.  Unlike `calc.py`, the
fallback averages all yields without filtering non-positive ones.  A null
yield entry would raise a `TypeError` in the source when compared; it is
modelled as 0 for an exact match and skipped in the average. -/
def _safe_yield_for_soil_with_fallback (crop : CropModel) (soil : SoilType) : ℚ × Bool :=
  match lookupSoil soil crop.yield_t_ha with
  | some (some y) => (y, false)
  | some none => (0, false)
  | none =>
    let values := crop.yield_t_ha.filterMap Prod.snd
    if values.isEmpty then (0, true) else (values.sum / values.length, true)

/-- The result dict of `profit.profit_eur_detailed`. -/
structure ProfitDetailed where
  profit : ℚ
  profit_per_ha : ℚ
  revenue_per_ha : ℚ
  revenue_total : ℚ
  cost_per_ha : ℚ
  cost_total : ℚ
  rent_per_ha : ℚ
  rent_total : ℚ
  yield_t_ha : ℚ
  price_eur_t : ℚ
  fallback_used : Bool
  warning : Option String
deriving DecidableEq, Repr

/-- `profit.profit_eur_detailed`: the detailed profit breakdown, which zeroes
revenue for non-market crops. -/
def profit_eur_detailed (field : FieldModel) (crop : CropModel)
    (price_info : ℚ × String × String) : ProfitDetailed :=
  let is_market := crop.is_market_crop
  let yd := _safe_yield_for_soil_with_fallback crop field.soil
  let yt := yd.1
  let fallback_used := yd.2
  let price := price_info.1
  let rent := field.rent_eur_ha
  let cost := crop.cost_eur_ha
  if yt ≤ 0 ∨ price ≤ 0 then
    { profit := 0, profit_per_ha := 0, revenue_per_ha := 0, revenue_total := 0,
      cost_per_ha := cost, cost_total := cost * field.area_ha,
      rent_per_ha := rent, rent_total := rent * field.area_ha,
      yield_t_ha := yt, price_eur_t := price, fallback_used := fallback_used,
      warning := some (if yt ≤ 0 then "Raža nav definēta vai ir 0 (t/ha). Peļņa nav aprēķināma."
        else "Cena nav definēta vai ir 0 (EUR/t). Peļņa nav aprēķināma.") }
  else
    let revenue_per_ha : ℚ := if is_market then yt * price else 0
    let revenue_total : ℚ := if is_market then yt * price * field.area_ha else 0
    let cost_total := cost * field.area_ha
    let rent_total := rent * field.area_ha
    let profit_per_ha := revenue_per_ha - cost - rent
    let total_profit := profit_per_ha * field.area_ha
    { profit := total_profit, profit_per_ha := profit_per_ha,
      revenue_per_ha := revenue_per_ha, revenue_total := revenue_total,
      cost_per_ha := cost, cost_total := cost_total,
      rent_per_ha := rent, rent_total := rent_total,
      yield_t_ha := yt, price_eur_t := price, fallback_used := fallback_used,
      warning := if 5000 < profit_per_ha ∨ 10000 < revenue_per_ha then
        some "Iespējamas vienību kļūdas (t/ha vs kg/ha vai EUR/t vs EUR/kg)." else none }

/-! ## pH penalty (`src/planner.py` lines 868-879, duplicated at 2028-2036) -/

/-- The pH-penalty step the planner applies to each scored candidate: a 10%
profit reduction with a note when the field's pH falls strictly outside the
crop's range, identity otherwise. -/
def applyPhPenalty (field : FieldModel) (crop : CropModel)
    (profit_total profit_per_ha : ℚ) : ℚ × ℚ × Option String :=
  match field.ph, crop.ph_range with
  | some ph, some (ph_min, ph_max) =>
    if ph < ph_min ∨ ph_max < ph then
      let penalty := profit_total * (10 / 100)
      let pt := profit_total - penalty
      (pt, if 0 < field.area_ha then pt / field.area_ha else 0,
        some ("pH " ++ toString ph ++ " ārpus optimālā diapazona (" ++ toString ph_min ++
          "-" ++ toString ph_max ++ "), peļņa samazināta par 10%"))
    else (profit_total, profit_per_ha, none)
  | _, _ => (profit_total, profit_per_ha, none)

/-- C5: when the field pH is set and strictly outside the crop's range, the
penalized total is exactly 90% of the pre-penalty total, the per-hectare
profit becomes the penalized total divided by the area, and a note is
attached; when the pH is inside the range or either value is unset the
profit is unchanged (`applyPhPenalty`, the planner's scoring step). -/
theorem ph_penalty_exact (field : FieldModel) (crop : CropModel)
    (profit_total profit_per_ha : ℚ) :
    (∀ ph ph_min ph_max, field.ph = some ph → crop.ph_range = some (ph_min, ph_max) →
      (ph < ph_min ∨ ph_max < ph) → 0 < field.area_ha →
      (applyPhPenalty field crop profit_total profit_per_ha).1 = (90 / 100) * profit_total
      ∧ (applyPhPenalty field crop profit_total profit_per_ha).2.1
          = ((90 / 100) * profit_total) / field.area_ha
      ∧ ((applyPhPenalty field crop profit_total profit_per_ha).2.2).isSome = true)
    ∧ (∀ ph ph_min ph_max, field.ph = some ph → crop.ph_range = some (ph_min, ph_max) →
      ph_min ≤ ph → ph ≤ ph_max →
      applyPhPenalty field crop profit_total profit_per_ha
        = (profit_total, profit_per_ha, none))
    ∧ (field.ph = none →
      applyPhPenalty field crop profit_total profit_per_ha
        = (profit_total, profit_per_ha, none))
    ∧ (crop.ph_range = none →
      applyPhPenalty field crop profit_total profit_per_ha
        = (profit_total, profit_per_ha, none)) := by
  refine ⟨?_, ?_, ?_, ?_⟩
  · intro ph ph_min ph_max hph hrange hout harea
    unfold applyPhPenalty
    rw [hph, hrange]
    simp only [if_pos hout]
    refine ⟨by ring, ?_, by simp⟩
    rw [if_pos harea]
    ring_nf
  · intro ph ph_min ph_max hph hrange hlo hhi
    have hcond : ¬(ph < ph_min ∨ ph_max < ph) := by
      push_neg
      exact ⟨hlo, hhi⟩
    unfold applyPhPenalty
    rw [hph, hrange]
    simp [hcond]
  · intro hph
    unfold applyPhPenalty
    rw [hph]
  · intro hrange
    unfold applyPhPenalty
    rw [hrange]
    rcases field.ph with _ | ph <;> rfl

/-- C5 witness: pH 5 against range [6, 7] on a 10 ha field: 1000 becomes 900,
90 per hectare, with a note. -/
theorem ph_penalty_exact_witness :
    (applyPhPenalty ⟨1, "L", 10, SoilType.smilts, 7, 0, some 5⟩
      ⟨"Kvieši", "Graudaugi", [9], [], 400, some 200, true, some (6, 7)⟩ 1000 100).1
      = (90 / 100) * 1000
    ∧ (applyPhPenalty ⟨1, "L", 10, SoilType.smilts, 7, 0, some 5⟩
      ⟨"Kvieši", "Graudaugi", [9], [], 400, some 200, true, some (6, 7)⟩ 1000 100).2.1
      = ((90 / 100) * 1000) / 10
    ∧ ((applyPhPenalty ⟨1, "L", 10, SoilType.smilts, 7, 0, some 5⟩
      ⟨"Kvieši", "Graudaugi", [9], [], 400, some 200, true, some (6, 7)⟩ 1000 100).2.2).isSome
      = true :=
  (ph_penalty_exact _ _ 1000 100).1 5 6 7 rfl rfl (by norm_num) (by norm_num)

/-- C6 counterexample: a non-market crop (yield 5 t/ha, price 100 EUR/t) gets
`revenue_per_ha = 500 ≠ 0` from `calculate_profit`, the profit computation the
planner's scoring path uses. -/
theorem nonmarket_revenue_counterexample :
    (⟨"Zālāji", "Citi", [5], [(SoilType.smilts, some 5)], 100, some 100, false, none⟩
        : CropModel).is_market_crop = false
    ∧ (calculate_profit ⟨1, "L", 10, SoilType.smilts, 7, 0, none⟩
        ⟨"Zālāji", "Citi", [5], [(SoilType.smilts, some 5)], 100, some 100, false, none⟩
        0).revenue_per_ha = 500 := by
  constructor
  · rfl
  · norm_num +decide [calculate_profit, lookupSoil]

/-- C6 (amended): `profit_eur_detailed` gives zero revenue to non-market
crops, but `calculate_profit` — the computation actually used when scoring
candidates — is insensitive to `is_market_crop` and computes
`revenue = yield * price` regardless, so a scored non-market candidate with a
positive resolved price and yield carries positive revenue. -/
theorem nonmarket_revenue_amended (field : FieldModel) (crop : CropModel)
    (price_info : ℚ × String × String) (rent : ℚ)
    (h : crop.is_market_crop = false) :
    (profit_eur_detailed field crop price_info).revenue_per_ha = 0
    ∧ (profit_eur_detailed field crop price_info).revenue_total = 0
    ∧ calculate_profit field crop rent
        = calculate_profit field { crop with is_market_crop := true } rent := by
  refine ⟨?_, ?_, ?_⟩
  · simp only [profit_eur_detailed]
    split
    · rfl
    · simp [h]
  · simp only [profit_eur_detailed]
    split
    · rfl
    · simp [h]
  · unfold calculate_profit
    rfl

/-- C6 witness: the amended statement at a concrete non-market crop. -/
theorem nonmarket_revenue_amended_witness :
    (profit_eur_detailed ⟨1, "L", 10, SoilType.smilts, 7, 0, none⟩
      ⟨"Zālāji", "Citi", [5], [(SoilType.smilts, some 5)], 100, some 100, false, none⟩
      (100, "Kultūru katalogs", "medium")).revenue_per_ha = 0
    ∧ (profit_eur_detailed ⟨1, "L", 10, SoilType.smilts, 7, 0, none⟩
      ⟨"Zālāji", "Citi", [5], [(SoilType.smilts, some 5)], 100, some 100, false, none⟩
      (100, "Kultūru katalogs", "medium")).revenue_total = 0
    ∧ calculate_profit ⟨1, "L", 10, SoilType.smilts, 7, 0, none⟩
        ⟨"Zālāji", "Citi", [5], [(SoilType.smilts, some 5)], 100, some 100, false, none⟩ 0
      = calculate_profit ⟨1, "L", 10, SoilType.smilts, 7, 0, none⟩
        ⟨"Zālāji", "Citi", [5], [(SoilType.smilts, some 5)], 100, some 100, true, none⟩ 0 :=
  nonmarket_revenue_amended _ _ _ 0 rfl

/-! ## Sanity checks (`src/sanity.py`) and price validation (`src/price_validation.py`) -/

/-- `sanity.validate_crop_numbers`.  A null yield entry for the field's soil
would raise a `TypeError` in the source when compared; it is modelled as no
yield warning. -/
def validate_crop_numbers (crop : CropModel) (field_soil : SoilType) : List String :=
  let w₁ : List String :=
    match lookupSoil field_soil crop.yield_t_ha with
    | some (some y) =>
      if (crop.group = "Graudaugi" ∨ crop.group = "Eļļaugi" ∨ crop.group = "Pākšaugi") ∧ 20 < y
      then ["yield_too_high"] else []
    | _ => []
  let w₂ : List String :=
    match crop.price_eur_t with
    | some p => if 1200 < p then ["price_too_high"] else []
    | none => []
  let w₃ : List String := if 3000 < crop.cost_eur_ha then ["cost_too_high"] else []
  w₁ ++ w₂ ++ w₃

/-- `price_validation._get_crop_group`: the group of the first `crops.json`
item with the given name (may be absent). -/
def _get_crop_group (file : List CropsJsonItem) (crop_name : String) : Option String :=
  match file.find? (fun it => it.name = some crop_name) with
  | some it => it.group
  | none => none

/-- `price_validation._get_price_range_for_group`. -/
def _get_price_range_for_group (group : String) : Option (ℚ × ℚ) :=
  if group = "Graudaugi" then some (80, 500)
  else if group = "Eļļaugi" then some (200, 900)
  else if group = "Pākšaugi" then some (150, 800)
  else if group = "Dārzeņi" then some (50, 300)
  else none

/-- `price_validation.validate_price` (its `valid` field). -/
def validate_price (file : List CropsJsonItem) (crop_name : String) (price_eur_t : ℚ) : Bool :=
  match _get_crop_group file crop_name with
  | none => true
  | some g =>
    match _get_price_range_for_group g with
    | none => true
    | some r => decide (r.1 ≤ price_eur_t ∧ price_eur_t ≤ r.2)

/-! ## The recommendation scorer (`src/planner.py`, `recommend_for_field`)

The data the Python function reads from files, caches and the market API is
passed in via `ExternalData`; the keyword filter arguments are bundled in
`FilterOptions`.  The explanation strings, the debug info and the global
price-metadata fields (`risk_level`, `volatility_pct`) of the result are not
modelled: no claim concerns them and they do not feed back into the
selection. -/

structure ExternalData where
  cropsJson : List CropsJsonItem := []
  prices_csv : List (String × Option ℚ) := []
  market_prices : List (String × ℚ) := []
  prices_with_fallback : List (String × ℚ) := []
deriving DecidableEq, Repr

structure FilterOptions where
  favorite_crops_filter : List String := []
  crop_group_filter : Option String := none
  favorites_plus_group : Bool := false
  include_crops_without_price : Bool := false
  include_vegetables : Bool := false
  allowed_groups : Option (List String) := none
deriving DecidableEq, Repr

/-- Python truthiness of an optional string (`None` and `""` are falsy). -/
def truthyStr : Option String → Bool
  | some s => decide (s ≠ "")
  | none => false

/-- The `working_crops_dict` rebuild of `recommend_for_field` when
`use_market_prices` is set: every crop's price is replaced by the market price
if present, else the fallback price, else the crop's own catalog price, else
0.  The source rebuilds `CropModel` without passing `is_market_crop`, so the
working copy always has the default `is_market_crop = True`. -/
def build_working_crops_dict (ext : ExternalData)
    (crops_dict : List (String × CropModel)) : List (String × CropModel) :=
  crops_dict.map (fun nc =>
    let fallback_price : ℚ :=
      match lookupStr nc.1 ext.prices_with_fallback with
      | some p => p
      | none => match nc.2.price_eur_t with | some p => p | none => 0
    let new_price : ℚ :=
      match lookupStr nc.1 ext.market_prices with
      | some p => p
      | none => fallback_price
    (nc.1, { nc.2 with price_eur_t := some new_price, is_market_crop := true }))

/-- The group of a crop name in the working dict (`working_crops_dict[name].group`). -/
def groupOf (working : List (String × CropModel)) (n : String) : String :=
  match lookupStr n working with
  | some c => c.group
  | none => ""

/-- The candidate filter stages of `recommend_for_field` before the rotation
rules: sow-months, sanity hard-excludes, vegetables, allowed groups, single
group, favorites.  `list(set(...))` in the favorites-plus-group mode has
unspecified order in the source and is modelled as `dedup` of the
concatenation. -/
def candidateFilterPipeline (field : FieldModel) (working : List (String × CropModel))
    (opts : FilterOptions) : List String :=
  let filtered_candidates := (working.filter (fun nc =>
    ¬nc.2.sow_months.isEmpty ∧
    ¬(validate_crop_numbers nc.2 field.soil).contains "yield_too_high" ∧
    ¬(validate_crop_numbers nc.2 field.soil).contains "price_too_high")).map Prod.fst
  let excluded_veg := if opts.include_vegetables then ([] : List String)
    else filtered_candidates.filter (fun n => groupOf working n = "Dārzeņi")
  let filtered_by_vegetables := filtered_candidates.filter (fun n => ¬excluded_veg.contains n)
  let filtered_by_allowed_groups :=
    match opts.allowed_groups with
    | some gs => if gs.isEmpty then filtered_by_vegetables
        else filtered_by_vegetables.filter (fun n => gs.contains (groupOf working n))
    | none => filtered_by_vegetables
  let filtered_by_group :=
    match opts.crop_group_filter with
    | some g => if g = "" then filtered_by_allowed_groups
        else filtered_by_allowed_groups.filter (fun n => groupOf working n = g)
    | none => filtered_by_allowed_groups
  if opts.favorite_crops_filter.isEmpty then filtered_by_group
  else if opts.favorites_plus_group ∧ truthyStr opts.crop_group_filter then
    (filtered_by_group ++ filtered_candidates.filter
      (fun n => opts.favorite_crops_filter.contains n)).dedup
  else filtered_by_group.filter (fun n => opts.favorite_crops_filter.contains n)

/-- One entry of the planner's `crop_profits` list. -/
structure ScoredCrop where
  crop_name : String
  profit_total : ℚ
  profit_per_ha : ℚ
  crop : CropModel
  is_market : Bool
  calc_result : ProfitCalculationResult
  ph_note : Option String
deriving DecidableEq, Repr

/-- The scoring loop body of `recommend_for_field` for one allowed crop:
resolve the price, drop zero-price crops (unless included), drop price
outliers, compute profit via `calculate_profit`, apply the pH penalty. -/
def scoreCandidate (field : FieldModel) (working : List (String × CropModel))
    (ext : ExternalData) (opts : FilterOptions) (crop_name : String) : Option ScoredCrop :=
  match lookupStr crop_name working with
  | none => none
  | some crop =>
    let price_value := (get_price_for_crop crop ext.prices_csv (_load_base_catalog ext.cropsJson)).1
    if ¬0 < price_value ∧ ¬opts.include_crops_without_price then none
    else if 0 < price_value ∧ ¬(validate_price ext.cropsJson crop_name price_value) then none
    else
      let crop_with_price :=
        { crop with price_eur_t := some (if 0 < price_value then price_value else 0) }
      let calc_result := calculate_profit field crop_with_price field.rent_eur_ha
      let pen := applyPhPenalty field crop calc_result.profit_total calc_result.profit_per_ha
      some { crop_name := crop_name, profit_total := pen.1, profit_per_ha := pen.2.1,
             crop := crop, is_market := crop.is_market_crop, calc_result := calc_result,
             ph_note := pen.2.2 }

/-- The planner's `crop_profits` list: the allowed crops that survive price
eligibility, scored. -/
def scoredCandidates (field : FieldModel) (working : List (String × CropModel))
    (ext : ExternalData) (opts : FilterOptions) (allowed : List String) : List ScoredCrop :=
  allowed.filterMap (scoreCandidate field working ext opts)

/-- The planner's `crops_without_price` list. -/
def cropsWithoutPrice (working : List (String × CropModel)) (ext : ExternalData)
    (allowed : List String) : List String :=
  allowed.filter (fun n =>
    match lookupStr n working with
    | some crop =>
      decide (¬ 0 < (get_price_for_crop crop ext.prices_csv (_load_base_catalog ext.cropsJson)).1)
    | none => false)

/-- The planner's `excluded_by_price_validation` list. -/
def excludedByPriceValidation (working : List (String × CropModel)) (ext : ExternalData)
    (allowed : List String) : List String :=
  allowed.filter (fun n =>
    match lookupStr n working with
    | some crop =>
      let p := (get_price_for_crop crop ext.prices_csv (_load_base_catalog ext.cropsJson)).1
      decide (0 < p) && !(validate_price ext.cropsJson n p)
    | none => false)

/-- The descending-profit order used by `crop_profits.sort(key=..., reverse=True)`. -/
def rScore (a b : ScoredCrop) : Prop := b.profit_total ≤ a.profit_total

instance : DecidableRel rScore :=
  fun a b => inferInstanceAs (Decidable (b.profit_total ≤ a.profit_total))

instance : IsTotal ScoredCrop rScore := ⟨fun a b => le_total b.profit_total a.profit_total⟩

instance : IsTrans ScoredCrop rScore := ⟨fun _ _ _ h₁ h₂ => le_trans h₂ h₁⟩

/-- Python's `round(x, 2)` modelled as round-half-up to hundredths (monotone
like the source's rounding; tie behaviour is immaterial to the claims). -/
def round2 (x : ℚ) : ℚ := (⌊x * 100 + 1 / 2⌋ : ℚ) / 100

theorem round2_mono {a b : ℚ} (h : a ≤ b) : round2 a ≤ round2 b := by
  unfold round2
  have h₁ : a * 100 + 1 / 2 ≤ b * 100 + 1 / 2 := by nlinarith
  have h₂ : ((⌊a * 100 + 1 / 2⌋ : ℚ)) ≤ ((⌊b * 100 + 1 / 2⌋ : ℚ)) :=
    Int.cast_le.mpr (Int.floor_le_floor h₁)
  linarith

/-- One entry of the planner's returned `candidates` list. -/
structure CandidateOut where
  name : String
  profit_total : ℚ
  profit_per_ha : ℚ
  sow_months : List Nat
  revenue_total : ℚ
  cost_total : ℚ
  revenue_per_ha : ℚ
  cost_per_ha : ℚ
  is_market_crop : Bool
  ph_note : Option String
deriving DecidableEq, Repr

/-- How a scored entry is rendered into the `candidates` list (per-hectare
profit is the unpenalized `calc_result.profit_per_ha`, as in the source). -/
def candidateOut (s : ScoredCrop) : CandidateOut :=
  { name := s.crop_name, profit_total := round2 s.profit_total,
    profit_per_ha := round2 s.calc_result.profit_per_ha, sow_months := s.crop.sow_months,
    revenue_total := round2 s.calc_result.revenue_total,
    cost_total := round2 s.calc_result.cost_total,
    revenue_per_ha := round2 s.calc_result.revenue_per_ha,
    cost_per_ha := round2 s.calc_result.cost_per_ha,
    is_market_crop := s.is_market, ph_note := s.ph_note }

/-- The modelled fields of `recommend_for_field`'s result dict. -/
structure RecommendResult where
  best_crop : Option String
  best_profit : ℚ
  profit_total : ℚ
  profit_per_ha : ℚ
  sow_months : List Nat
  candidates : List CandidateOut
  top3 : List CandidateOut
  crops_without_price : List String
  excluded_by_price_validation : List String
  forbidden_crops : List String
deriving DecidableEq, Repr

/-- The guarded per-hectare division the planner uses for the best crop
(`best_profit_total / field.area_ha` when the area is positive, else 0). -/
def bestProfitPerHa (profit_total area : ℚ) : ℚ :=
  if 0 < area then profit_total / area else 0

/-- The empty results of `recommend_for_field` (no allowed crop, or no scored
crop). -/
def emptyRecommend (cwp ebpv forb : List String) : RecommendResult :=
  { best_crop := none, best_profit := 0, profit_total := 0, profit_per_ha := 0,
    sow_months := [], candidates := [], top3 := [],
    crops_without_price := cwp, excluded_by_price_validation := ebpv,
    forbidden_crops := forb }

/-- The working dict actually scored (`crops_dict` itself unless
`use_market_prices`). -/
def workingCropsOf (ext : ExternalData) (crops_dict : List (String × CropModel))
    (use_market_prices : Bool) : List (String × CropModel) :=
  if use_market_prices then build_working_crops_dict ext crops_dict else crops_dict

/-- `filtered_by_favorites` of `recommend_for_field`. -/
def survivingCropsOf (field : FieldModel) (crops_dict : List (String × CropModel))
    (ext : ExternalData) (opts : FilterOptions) (use_market_prices : Bool) : List String :=
  candidateFilterPipeline field (workingCropsOf ext crops_dict use_market_prices) opts

/-- `allowed_crops` of `recommend_for_field`. -/
def allowedCropsOf (field : FieldModel) (history : List PlantingRecord)
    (crops_dict : List (String × CropModel)) (target_year : ℤ)
    (ext : ExternalData) (opts : FilterOptions) (use_market_prices : Bool) : List String :=
  get_allowed_crops history (survivingCropsOf field crops_dict ext opts use_market_prices)
    target_year field.id

/-- `crop_profits` of `recommend_for_field`. -/
def scoredOf (field : FieldModel) (history : List PlantingRecord)
    (crops_dict : List (String × CropModel)) (target_year : ℤ)
    (ext : ExternalData) (opts : FilterOptions) (use_market_prices : Bool) : List ScoredCrop :=
  scoredCandidates field (workingCropsOf ext crops_dict use_market_prices) ext opts
    (allowedCropsOf field history crops_dict target_year ext opts use_market_prices)

/-- `planner.recommend_for_field`: filter, apply rotation rules, score every
allowed candidate, sort by total profit descending and return the best crop
with the ranked candidate list. -/
def recommend_for_field (field : FieldModel) (history : List PlantingRecord)
    (crops_dict : List (String × CropModel)) (target_year : ℤ)
    (ext : ExternalData) (opts : FilterOptions) (use_market_prices : Bool) :
    RecommendResult :=
  let working := workingCropsOf ext crops_dict use_market_prices
  let allowed := allowedCropsOf field history crops_dict target_year ext opts use_market_prices
  let forbidden := (survivingCropsOf field crops_dict ext opts use_market_prices).filter
    (fun c => ¬allowed.contains c ∧
      (opts.include_vegetables ∨ ¬(groupOf working c = "Dārzeņi")))
  if allowed.isEmpty then emptyRecommend [] [] []
  else
    let scored := scoredOf field history crops_dict target_year ext opts use_market_prices
    let cwp := cropsWithoutPrice working ext allowed
    let ebpv := excludedByPriceValidation working ext allowed
    if scored.isEmpty then emptyRecommend cwp ebpv forbidden
    else
      match List.insertionSort rScore scored with
      | [] => emptyRecommend cwp ebpv forbidden
      | best :: rest =>
        { best_crop := some best.crop_name
          best_profit := round2 best.profit_total
          profit_total := round2 best.profit_total
          profit_per_ha := round2 (bestProfitPerHa best.profit_total field.area_ha)
          sow_months := best.crop.sow_months
          candidates := (best :: rest).map candidateOut
          top3 := (((best :: rest).take 3).filter (fun s =>
            opts.include_vegetables ∨ ¬(s.crop.group = "Dārzeņi"))).map candidateOut
          crops_without_price := cwp
          excluded_by_price_validation := ebpv
          forbidden_crops := forbidden }

/-- C1: whenever `recommend_for_field` returns a best crop, that crop is a
scored candidate whose `profit_total` is maximal among all candidates that
survived filtering and price eligibility (no survivor is strictly more
profitable), and the returned candidates list is sorted by `profit_total` in
descending order. -/
theorem recommend_best_optimal (field : FieldModel) (history : List PlantingRecord)
    (crops_dict : List (String × CropModel)) (target_year : ℤ)
    (ext : ExternalData) (opts : FilterOptions) (use_market_prices : Bool) (c : String)
    (h : (recommend_for_field field history crops_dict target_year ext opts
      use_market_prices).best_crop = some c) :
    ∃ s ∈ scoredOf field history crops_dict target_year ext opts use_market_prices,
      s.crop_name = c
      ∧ (∀ t ∈ scoredOf field history crops_dict target_year ext opts use_market_prices,
          t.profit_total ≤ s.profit_total)
      ∧ (recommend_for_field field history crops_dict target_year ext opts
          use_market_prices).profit_total = round2 s.profit_total
      ∧ List.Sorted (fun a b : CandidateOut => b.profit_total ≤ a.profit_total)
          ((recommend_for_field field history crops_dict target_year ext opts
            use_market_prices).candidates) := by
  simp only [recommend_for_field] at h ⊢
  split_ifs at h ⊢ with h₁ h₂
  · exact absurd h (by simp [emptyRecommend])
  · exact absurd h (by simp [emptyRecommend])
  · split at h
    · exact absurd h (by simp [emptyRecommend])
    · rename_i best rest hsort
      have hperm : (best :: rest).Perm
          (scoredOf field history crops_dict target_year ext opts use_market_prices) := by
        rw [← hsort]
        exact List.perm_insertionSort rScore _
      have hsorted : List.Sorted rScore (best :: rest) := by
        rw [← hsort]
        exact List.sorted_insertionSort rScore _
      refine ⟨best, hperm.subset (List.mem_cons_self best rest), ?_, ?_, ?_, ?_⟩
      · exact Option.some_inj.mp h
      · intro t ht
        rcases List.mem_cons.mp ((hperm.mem_iff).mpr ht) with h' | h'
        · exact le_of_eq (by rw [h'])
        · exact (List.sorted_cons.mp hsorted).1 t h'
      · simp only [hsort]
      · simp only [hsort]
        exact List.Pairwise.map candidateOut (fun a b hab => round2_mono hab) hsorted

/-- The sample field, catalog and context used by concrete witnesses. -/
def sampleField : FieldModel := ⟨1, "Lauks", 10, SoilType.smilts, 7, 0, none⟩

def sampleWheat : CropModel :=
  ⟨"Kvieši", "Graudaugi", [9], [(SoilType.smilts, some 5)], 400, some 200, true, none⟩

def sampleBarley : CropModel :=
  ⟨"Mieži", "Graudaugi", [4], [(SoilType.smilts, some 4)], 300, some 150, true, none⟩

def sampleCrops : List (String × CropModel) :=
  [("Kvieši", sampleWheat), ("Mieži", sampleBarley)]

def sampleExt : ExternalData := ⟨[], [], [], []⟩

def sampleOpts : FilterOptions := ⟨[], none, false, false, false, none⟩

/-- C1 witness: on the sample catalog the recommendation is wheat (profit
6000 vs 3000), and the claim instantiates there. -/
theorem recommend_best_optimal_witness :
    ∃ s ∈ scoredOf sampleField [] sampleCrops 2025 sampleExt sampleOpts false,
      s.crop_name = "Kvieši"
      ∧ (∀ t ∈ scoredOf sampleField [] sampleCrops 2025 sampleExt sampleOpts false,
          t.profit_total ≤ s.profit_total)
      ∧ (recommend_for_field sampleField [] sampleCrops 2025 sampleExt sampleOpts
          false).profit_total = round2 s.profit_total
      ∧ List.Sorted (fun a b : CandidateOut => b.profit_total ≤ a.profit_total)
          ((recommend_for_field sampleField [] sampleCrops 2025 sampleExt sampleOpts
            false).candidates) :=
  recommend_best_optimal sampleField [] sampleCrops 2025 sampleExt sampleOpts false "Kvieši"
    (by norm_num +decide [recommend_for_field, workingCropsOf, allowedCropsOf,
      survivingCropsOf, scoredOf, candidateFilterPipeline, groupOf, get_allowed_crops,
      scoredCandidates, scoreCandidate, cropsWithoutPrice, excludedByPriceValidation,
      get_price_for_crop, _group_average_price, groupPriceValue, _load_base_catalog,
      validate_price, _get_crop_group, validate_crop_numbers, lookupSoil, lookupStr,
      calculate_profit, applyPhPenalty, emptyRecommend, rScore, List.insertionSort,
      List.orderedInsert, truthyStr, sampleField, sampleWheat, sampleBarley, sampleCrops,
      sampleExt, sampleOpts])

/-! ## Price scenarios (`src/scenarios.py`, `planner._build_temp_crops_dict`) -/

/-- `scenarios.price_scenarios`: the five scenario price sets, in the fixed
source order. -/
def price_scenarios (base_prices : List (String × ℚ)) : List (String × List (String × ℚ)) :=
  [("minus20", base_prices.map (fun cp => (cp.1, cp.2 * (80 / 100)))),
   ("minus10", base_prices.map (fun cp => (cp.1, cp.2 * (90 / 100)))),
   ("base", base_prices),
   ("plus10", base_prices.map (fun cp => (cp.1, cp.2 * (110 / 100)))),
   ("plus20", base_prices.map (fun cp => (cp.1, cp.2 * (120 / 100))))]

/-- The price multiplier of each named scenario. -/
def scenFactor : String → Option ℚ
  | "minus20" => some (80 / 100)
  | "minus10" => some (90 / 100)
  | "base" => some 1
  | "plus10" => some (110 / 100)
  | "plus20" => some (120 / 100)
  | _ => none

/-- The loop body of `planner._build_temp_crops_dict` for one catalog entry:
a high-confidence (manual CSV) price is kept as-is, any other crop takes the
scenario price.  The source raises `KeyError` for a crop missing from
`new_prices`; the embedding returns 0 there. -/
def buildTempEntry (new_prices : List (String × ℚ)) (prices_csv : List (String × Option ℚ))
    (cropsJson : List CropsJsonItem) (nc : String × CropModel) : String × CropModel :=
  let pr := get_price_for_crop nc.2 prices_csv (_load_base_catalog cropsJson)
  let effective_price : ℚ :=
    if pr.2.2 = "high" then pr.1
    else (lookupStr nc.1 new_prices).getD 0
  (nc.1, { nc.2 with price_eur_t := some effective_price, is_market_crop := true })

/-- `planner._build_temp_crops_dict`. -/
def _build_temp_crops_dict (crops_dict : List (String × CropModel))
    (new_prices : List (String × ℚ)) (prices_csv : List (String × Option ℚ))
    (cropsJson : List CropsJsonItem) : List (String × CropModel) :=
  crops_dict.map (buildTempEntry new_prices prices_csv cropsJson)

theorem lookupStr_map_mul (n : String) (l : List (String × ℚ)) (f : ℚ) :
    lookupStr n (l.map (fun cp => (cp.1, cp.2 * f))) = (lookupStr n l).map (· * f) := by
  induction l with
  | nil => rfl
  | cons cp rest ih =>
    by_cases hk : cp.1 = n
    · simp [lookupStr, hk]
    · simp [lookupStr, hk, ih]

/-- C7: a crop whose resolved price has confidence "high" gets the same
effective price in every one of the five scenario catalogs built by
`_build_temp_crops_dict`, while a crop with any other confidence gets its
base price multiplied by the scenario factor. -/
theorem scenario_high_confidence_invariance
    (crops_dict : List (String × CropModel)) (prices_csv : List (String × Option ℚ))
    (cropsJson : List CropsJsonItem) (base_prices : List (String × ℚ))
    (nc : String × CropModel) (hmem : nc ∈ crops_dict) :
    ((get_price_for_crop nc.2 prices_csv (_load_base_catalog cropsJson)).2.2 = "high" →
      ∀ s₁ ∈ price_scenarios base_prices, ∀ s₂ ∈ price_scenarios base_prices,
        (buildTempEntry s₁.2 prices_csv cropsJson nc).2.price_eur_t
          = (buildTempEntry s₂.2 prices_csv cropsJson nc).2.price_eur_t
        ∧ buildTempEntry s₁.2 prices_csv cropsJson nc
            ∈ _build_temp_crops_dict crops_dict s₁.2 prices_csv cropsJson)
    ∧ ((get_price_for_crop nc.2 prices_csv (_load_base_catalog cropsJson)).2.2 ≠ "high" →
      ∀ p, lookupStr nc.1 base_prices = some p →
      ∀ s ∈ price_scenarios base_prices, ∃ f, scenFactor s.1 = some f ∧
        (buildTempEntry s.2 prices_csv cropsJson nc).2.price_eur_t = some (p * f)) := by
  constructor
  · intro hconf s₁ hs₁ s₂ hs₂
    constructor
    · simp [buildTempEntry, hconf]
    · exact List.mem_map_of_mem (buildTempEntry s₁.2 prices_csv cropsJson) hmem
  · intro hconf p hp s hs
    simp only [price_scenarios, List.mem_cons, List.not_mem_nil, or_false] at hs
    rcases hs with rfl | rfl | rfl | rfl | rfl
    · exact ⟨80 / 100, rfl, by simp [buildTempEntry, hconf, lookupStr_map_mul, hp]⟩
    · exact ⟨90 / 100, rfl, by simp [buildTempEntry, hconf, lookupStr_map_mul, hp]⟩
    · exact ⟨1, rfl, by simp [buildTempEntry, hconf, hp]⟩
    · exact ⟨110 / 100, rfl, by simp [buildTempEntry, hconf, lookupStr_map_mul, hp]⟩
    · exact ⟨120 / 100, rfl, by simp [buildTempEntry, hconf, lookupStr_map_mul, hp]⟩

/-- C7 witness: wheat with a manual CSV price of 210 is priced identically in
the −20% and +20% scenario catalogs. -/
theorem scenario_high_confidence_invariance_witness :
    (buildTempEntry ((price_scenarios [("Kvieši", 200)]).get ⟨0, by simp [price_scenarios]⟩).2
        [("Kvieši", some 210)] [] ("Kvieši", sampleWheat)).2.price_eur_t
      = (buildTempEntry ((price_scenarios [("Kvieši", 200)]).get ⟨4, by simp [price_scenarios]⟩).2
        [("Kvieši", some 210)] [] ("Kvieši", sampleWheat)).2.price_eur_t
    ∧ buildTempEntry ((price_scenarios [("Kvieši", 200)]).get ⟨0, by simp [price_scenarios]⟩).2
        [("Kvieši", some 210)] [] ("Kvieši", sampleWheat)
      ∈ _build_temp_crops_dict [("Kvieši", sampleWheat)]
        ((price_scenarios [("Kvieši", 200)]).get ⟨0, by simp [price_scenarios]⟩).2
        [("Kvieši", some 210)] [] :=
  (scenario_high_confidence_invariance [("Kvieši", sampleWheat)] [("Kvieši", some 210)] []
      [("Kvieši", 200)] ("Kvieši", sampleWheat) (by simp)).1
    (by norm_num +decide [get_price_for_crop, lookupStr, sampleWheat])
    _ (List.get_mem _ _ _) _ (List.get_mem _ _ _)

/-! ## Lookahead planning (`planner.plan_for_years_lookahead`)

The simulation phase of the lookahead planner produces its
`evaluated_candidates` list, one entry per top-K first-year candidate with the
simulated N-year total profit.  The winner selection (source lines 1714-1720)
sorts that list by `total_profit`, descending and stable, and takes the first
element. -/

/-- One element of the lookahead planner's `evaluated_candidates` list. -/
structure EvaluatedCandidate where
  crop : String
  total_profit : ℚ
deriving DecidableEq, Repr

/-- The order used by `evaluated_candidates.sort(key=..., reverse=True)`. -/
def rEval (a b : EvaluatedCandidate) : Prop := b.total_profit ≤ a.total_profit

instance : DecidableRel rEval :=
  fun a b => inferInstanceAs (Decidable (b.total_profit ≤ a.total_profit))

instance : IsTotal EvaluatedCandidate rEval := ⟨fun a b => le_total b.total_profit a.total_profit⟩

instance : IsTrans EvaluatedCandidate rEval := ⟨fun _ _ _ h₁ h₂ => le_trans h₂ h₁⟩

/-- The winner selection of `plan_for_years_lookahead`: stable descending sort
by simulated total profit, then the head. -/
def lookahead_select (evaluated_candidates : List EvaluatedCandidate) :
    Option EvaluatedCandidate :=
  (List.insertionSort rEval evaluated_candidates).head?

/-- The first list element attaining the maximal simulated total (earlier
entries win ties). -/
def firstMax : List EvaluatedCandidate → Option EvaluatedCandidate
  | [] => none
  | a :: l =>
    match firstMax l with
    | none => some a
    | some b => if rEval a b then some a else some b

theorem firstMax_eq_none {l : List EvaluatedCandidate} (h : firstMax l = none) : l = [] := by
  cases l with
  | nil => rfl
  | cons a t =>
    exfalso
    unfold firstMax at h
    split at h
    · exact absurd h (by simp)
    · split at h
      · exact absurd h (by simp)
      · exact absurd h (by simp)

theorem orderedInsert_head (a : EvaluatedCandidate) (s : List EvaluatedCandidate) :
    (List.orderedInsert rEval a s).head? =
      match s.head? with
      | none => some a
      | some b => if rEval a b then some a else some b := by
  cases s with
  | nil => rfl
  | cons b t =>
    by_cases hr : rEval a b
    · simp only [List.orderedInsert, if_pos hr, List.head?]
    · simp only [List.orderedInsert, if_neg hr, List.head?]

theorem insertionSort_head_firstMax (l : List EvaluatedCandidate) :
    (List.insertionSort rEval l).head? = firstMax l := by
  induction l with
  | nil => rfl
  | cons a l ih =>
    simp only [List.insertionSort]
    rw [orderedInsert_head, ih]
    conv_rhs => rw [firstMax]

theorem firstMax_earliest {l : List EvaluatedCandidate} {b : EvaluatedCandidate}
    (h : firstMax l = some b) :
    ∀ l₁ e l₂, l = l₁ ++ e :: l₂ → e.total_profit = b.total_profit → b ∈ l₁ ∨ b = e := by
  induction l with
  | nil => exact absurd h (by simp [firstMax])
  | cons a t ih =>
    intro l₁ e l₂ hsplit htie
    unfold firstMax at h
    split at h
    · rename_i hf
      injection h with hba
      have ht : t = [] := firstMax_eq_none hf
      subst ht
      cases l₁ with
      | nil =>
        injection hsplit with hx _
        exact Or.inr (by rw [← hba, hx])
      | cons x l₁t =>
        injection hsplit with hx hrest
        exact absurd hrest (by simp)
    · rename_i m hf
      split at h
      · rename_i hc
        injection h with hba
        cases l₁ with
        | nil =>
          injection hsplit with hx _
          exact Or.inr (by rw [← hba, hx])
        | cons x l₁t =>
          injection hsplit with hx _
          exact Or.inl (by rw [← hba, hx]; exact List.mem_cons_self x l₁t)
      · rename_i hc
        injection h with hbm
        cases l₁ with
        | nil =>
          injection hsplit with hx _
          refine absurd ?_ hc
          show m.total_profit ≤ a.total_profit
          rw [hbm, ← htie, ← hx]
        | cons x l₁t =>
          injection hsplit with hx hrest
          rcases ih (by rw [hf, hbm]) l₁t e l₂ hrest htie with hin | heq
          · exact Or.inl (List.mem_cons_of_mem x hin)
          · exact Or.inr heq

/-- C8: the candidate chosen by the lookahead winner selection is one of the
evaluated candidates, its simulated total profit is ≥ every other evaluated
candidate's simulated total, and ties go to the candidate that came earlier
in the original top-K order: the chosen candidate is the first to attain the
maximum. -/
theorem lookahead_dominance (evals : List EvaluatedCandidate) (best : EvaluatedCandidate)
    (h : lookahead_select evals = some best) :
    best ∈ evals
    ∧ (∀ e ∈ evals, e.total_profit ≤ best.total_profit)
    ∧ (∀ l₁ e l₂, evals = l₁ ++ e :: l₂ → e.total_profit = best.total_profit →
        best ∈ l₁ ∨ best = e) := by
  unfold lookahead_select at h
  obtain ⟨rest, hsort⟩ : ∃ rest, List.insertionSort rEval evals = best :: rest := by
    cases hs : List.insertionSort rEval evals with
    | nil => rw [hs] at h; exact absurd h (by simp)
    | cons x t =>
      rw [hs] at h
      simp at h
      exact ⟨t, by rw [h]⟩
  have hperm : (best :: rest).Perm evals := by
    rw [← hsort]
    exact List.perm_insertionSort rEval evals
  have hsorted : List.Sorted rEval (best :: rest) := by
    rw [← hsort]
    exact List.sorted_insertionSort rEval evals
  refine ⟨hperm.subset (List.mem_cons_self best rest), ?_, ?_⟩
  · intro e he
    rcases List.mem_cons.mp ((hperm.mem_iff).mpr he) with h' | h'
    · exact le_of_eq (by rw [h'])
    · exact (List.sorted_cons.mp hsorted).1 e h'
  · have hfm : firstMax evals = some best := by
      rw [← insertionSort_head_firstMax, hsort]
      rfl
    exact firstMax_earliest hfm

/-- C8 witness: with simulated totals A = 5, B = 5, C = 3 the winner is A
(the tie with B goes to the better original rank). -/
theorem lookahead_dominance_witness :
    (⟨"A", 5⟩ : EvaluatedCandidate) ∈ [⟨"A", 5⟩, ⟨"B", 5⟩, (⟨"C", 3⟩ : EvaluatedCandidate)]
    ∧ (∀ e ∈ [⟨"A", 5⟩, ⟨"B", 5⟩, (⟨"C", 3⟩ : EvaluatedCandidate)],
        e.total_profit ≤ (⟨"A", 5⟩ : EvaluatedCandidate).total_profit)
    ∧ (∀ l₁ e l₂, [⟨"A", 5⟩, ⟨"B", 5⟩, (⟨"C", 3⟩ : EvaluatedCandidate)] = l₁ ++ e :: l₂ →
        e.total_profit = (⟨"A", 5⟩ : EvaluatedCandidate).total_profit →
        (⟨"A", 5⟩ : EvaluatedCandidate) ∈ l₁ ∨ (⟨"A", 5⟩ : EvaluatedCandidate) = e) :=
  lookahead_dominance [⟨"A", 5⟩, ⟨"B", 5⟩, ⟨"C", 3⟩] ⟨"A", 5⟩
    (by norm_num +decide [lookahead_select, List.insertionSort, List.orderedInsert, rEval])

/-! ## Multi-field allocation (`planner.recommend_for_all_fields_with_limits`)

Phase 1 of the source builds, for every field, a ranked candidate list
`(crop_name, profit, profit_per_ha)` by the same scoring used in
`recommend_for_field`; phase 2 sorts the fields by difficulty and greedily
assigns crops under the shared `max_area_per_crop` caps.  The allocation
phase is embedded here over the phase-1 output (`FieldEntry` values); the
fold additionally records which field entry produced each result, and the
source's return value is the projection to the results. -/

/-- One ranked candidate of a field. -/
structure FieldCandidate where
  crop_name : String
  profit : ℚ
  profit_per_ha : ℚ
deriving DecidableEq, Repr

/-- The phase-1 output for one field, as consumed by the allocation loop. -/
structure FieldEntry where
  field_id : Nat
  field_name : String
  area_ha : ℚ
  candidates : List FieldCandidate
deriving DecidableEq, Repr

/-- One element of the allocator's results list. -/
structure AllocationResult where
  field_id : Nat
  field_name : String
  chosen_crop : Option String
  profit : ℚ
  profit_per_ha : ℚ
  warnings : List String
deriving DecidableEq, Repr

/-- The difficulty score: best minus second-best profit, 0 with a single
candidate, infinite with none. -/
def difficulty : List FieldCandidate → WithTop ℚ
  | c₁ :: c₂ :: _ => some (c₁.profit - c₂.profit)
  | [_] => some 0
  | [] => ⊤

/-- The ascending-difficulty processing order. -/
def rDiff (a b : FieldEntry) : Prop := difficulty a.candidates ≤ difficulty b.candidates

instance : DecidableRel rDiff :=
  fun a b => inferInstanceAs (Decidable (difficulty a.candidates ≤ difficulty b.candidates))

instance : IsTotal FieldEntry rDiff := ⟨fun a b => le_total _ _⟩

instance : IsTrans FieldEntry rDiff := ⟨fun _ _ _ h₁ h₂ => le_trans h₁ h₂⟩

/-- `used_area_by_crop.get(crop, 0.0)`. -/
def getUsed (used : List (String × ℚ)) (c : String) : ℚ := (lookupStr c used).getD 0

/-- The capacity test of the allocation loop
(`current_area + field.area_ha <= max_area`, with an infinite default cap). -/
def fitsCap (caps : List (String × ℚ)) (used : List (String × ℚ)) (area : ℚ)
    (c : String) : Bool :=
  match lookupStr c caps with
  | none => true
  | some m => decide (getUsed used c + area ≤ m)

/-- The cap-exceeded warning text (the source interpolates the numbers; only
the crop name matters to the claims). -/
def capWarning (c : String) : String := "Kultūra " ++ c ++ " pārsniedz maksimālo platību"

/-- One iteration of the allocation loop: the first ranked candidate fitting
under its cap is assigned; if none fits and candidates exist, the top
candidate is force-assigned with a cap-exceeded warning; with no candidates
the field stays unassigned. -/
def allocStep (caps : List (String × ℚ))
    (state : List (String × ℚ) × List (FieldEntry × AllocationResult))
    (entry : FieldEntry) : List (String × ℚ) × List (FieldEntry × AllocationResult) :=
  match entry.candidates.find? (fun cand => fitsCap caps state.1 entry.area_ha cand.crop_name) with
  | some cand =>
    ((cand.crop_name, getUsed state.1 cand.crop_name + entry.area_ha) :: state.1,
     state.2 ++ [(entry, ⟨entry.field_id, entry.field_name, some cand.crop_name,
       round2 cand.profit, round2 cand.profit_per_ha, []⟩)])
  | none =>
    match entry.candidates with
    | [] => (state.1, state.2 ++ [(entry, ⟨entry.field_id, entry.field_name, none, 0, 0, []⟩)])
    | top :: _ =>
      ((top.crop_name, getUsed state.1 top.crop_name + entry.area_ha) :: state.1,
       state.2 ++ [(entry, ⟨entry.field_id, entry.field_name, some top.crop_name,
         round2 top.profit, round2 top.profit_per_ha, [capWarning top.crop_name]⟩)])

/-- The allocation pass: fields in ascending difficulty order folded through
`allocStep`, starting from a zeroed per-crop area counter over the catalog. -/
def allocPairs (entries : List FieldEntry) (caps : List (String × ℚ))
    (catalog_names : List String) :
    List (String × ℚ) × List (FieldEntry × AllocationResult) :=
  (List.insertionSort rDiff entries).foldl (allocStep caps)
    (catalog_names.map (fun c => (c, 0)), [])

/-- `planner.recommend_for_all_fields_with_limits`, allocation phase: the
per-field results. -/
def recommend_for_all_fields_with_limits (entries : List FieldEntry)
    (caps : List (String × ℚ)) (catalog_names : List String) : List AllocationResult :=
  (allocPairs entries caps catalog_names).2.map Prod.snd

/-- The summed area of the fields whose result assigned the crop. -/
def sumAssigned (c : String) (pairs : List (FieldEntry × AllocationResult)) : ℚ :=
  ((pairs.filter (fun pr => pr.2.chosen_crop = some c)).map (fun pr => pr.1.area_ha)).sum

theorem getUsed_cons_self (used : List (String × ℚ)) (c : String) (v : ℚ) :
    getUsed ((c, v) :: used) c = v := by
  simp [getUsed, lookupStr]

theorem getUsed_cons_ne (used : List (String × ℚ)) (c c' : String) (v : ℚ) (h : c' ≠ c) :
    getUsed ((c', v) :: used) c = getUsed used c := by
  simp [getUsed, lookupStr, h]

theorem sumAssigned_append_one (c : String) (pairs : List (FieldEntry × AllocationResult))
    (e : FieldEntry) (r : AllocationResult) :
    sumAssigned c (pairs ++ [(e, r)])
      = sumAssigned c pairs + (if r.chosen_crop = some c then e.area_ha else 0) := by
  by_cases h : r.chosen_crop = some c
  · simp [sumAssigned, List.filter_append, h]
  · simp [sumAssigned, List.filter_append, h]

theorem getUsed_init (catalog_names : List String) (c : String) :
    getUsed (catalog_names.map (fun c => (c, 0))) c = 0 := by
  induction catalog_names with
  | nil => rfl
  | cons x rest ih =>
    by_cases h : x = c
    · simp [getUsed, lookupStr, h]
    · simpa [getUsed, lookupStr, h] using ih

/-- The allocation invariant for a capped crop: the used-area counter equals
the summed assigned area, and it is within the cap unless a warned result
already assigned the crop. -/
def capInv (caps : List (String × ℚ)) (c : String) (m : ℚ)
    (state : List (String × ℚ) × List (FieldEntry × AllocationResult)) : Prop :=
  getUsed state.1 c = sumAssigned c state.2
  ∧ (getUsed state.1 c ≤ m
     ∨ ∃ r ∈ state.2.map Prod.snd, r.chosen_crop = some c ∧ r.warnings ≠ [])

theorem allocStep_preserves_capInv (caps : List (String × ℚ)) (c : String) (m : ℚ)
    (hcap : lookupStr c caps = some m)
    (state : List (String × ℚ) × List (FieldEntry × AllocationResult))
    (entry : FieldEntry) (hinv : capInv caps c m state) :
    capInv caps c m (allocStep caps state entry) := by
  obtain ⟨hsum, hdisj⟩ := hinv
  unfold allocStep
  cases hfind : entry.candidates.find?
      (fun cand => fitsCap caps state.1 entry.area_ha cand.crop_name) with
  | some cand =>
    dsimp only
    have hfit : fitsCap caps state.1 entry.area_ha cand.crop_name = true := by
      have h₀ := List.find?_some hfind
      simpa using h₀
    by_cases hc : cand.crop_name = c
    · subst hc
      have hle : getUsed state.1 cand.crop_name + entry.area_ha ≤ m := by
        unfold fitsCap at hfit
        rw [hcap] at hfit
        exact of_decide_eq_true hfit
      constructor
      · rw [getUsed_cons_self, sumAssigned_append_one, ← hsum]
        simp
      · left
        rw [getUsed_cons_self]
        exact hle
    · constructor
      · rw [getUsed_cons_ne _ _ _ _ hc, sumAssigned_append_one, ← hsum,
          if_neg (fun h => hc (Option.some_inj.mp h)), add_zero]
      · rcases hdisj with hle | ⟨r, hr, hrc⟩
        · left
          rw [getUsed_cons_ne _ _ _ _ hc]
          exact hle
        · right
          exact ⟨r, by rw [List.map_append]; exact List.mem_append_left _ hr, hrc⟩
  | none =>
    cases hcands : entry.candidates with
    | nil =>
      dsimp only
      constructor
      · rw [sumAssigned_append_one, ← hsum]
        simp
      · rcases hdisj with hle | ⟨r, hr, hrc⟩
        · exact Or.inl hle
        · exact Or.inr ⟨r, by rw [List.map_append]; exact List.mem_append_left _ hr, hrc⟩
    | cons top tl =>
      dsimp only
      by_cases hc : top.crop_name = c
      · subst hc
        constructor
        · rw [getUsed_cons_self, sumAssigned_append_one, ← hsum]
          simp
        · right
          refine ⟨⟨entry.field_id, entry.field_name, some top.crop_name,
            round2 top.profit, round2 top.profit_per_ha, [capWarning top.crop_name]⟩,
            by simp, by simp, by simp⟩
      · constructor
        · rw [getUsed_cons_ne _ _ _ _ hc, sumAssigned_append_one, ← hsum,
            if_neg (fun h => hc (Option.some_inj.mp h)), add_zero]
        · rcases hdisj with hle | ⟨r, hr, hrc⟩
          · left
            rw [getUsed_cons_ne _ _ _ _ hc]
            exact hle
          · right
            exact ⟨r, by rw [List.map_append]; exact List.mem_append_left _ hr, hrc⟩

theorem foldl_preserves_capInv (caps : List (String × ℚ)) (c : String) (m : ℚ)
    (hcap : lookupStr c caps = some m) (entries : List FieldEntry) :
    ∀ state, capInv caps c m state →
      capInv caps c m (entries.foldl (allocStep caps) state) := by
  induction entries with
  | nil => exact fun state h => h
  | cons e rest ih =>
    intro state h
    exact ih _ (allocStep_preserves_capInv caps c m hcap state e h)

/-- C9: for every crop with a (nonnegative) cap in `max_area_per_crop`, the
summed area of the fields the allocator assigned that crop does not exceed
the cap — unless some field was force-assigned (no candidate fit under any
cap), in which case a cap-exceeded warning sits on a result that chose that
crop; every overrun is accompanied by such a warning. -/
theorem allocation_cap_respect (entries : List FieldEntry) (caps : List (String × ℚ))
    (catalog_names : List String) (c : String) (m : ℚ)
    (hcap : lookupStr c caps = some m) (hm : 0 ≤ m) :
    sumAssigned c (allocPairs entries caps catalog_names).2 ≤ m
    ∨ ∃ r ∈ recommend_for_all_fields_with_limits entries caps catalog_names,
        r.chosen_crop = some c ∧ r.warnings ≠ [] := by
  have hinit : capInv caps c m (catalog_names.map (fun c => (c, 0)), []) := by
    constructor
    · rw [getUsed_init]
      rfl
    · left
      rw [getUsed_init]
      exact hm
  have hfinal := foldl_preserves_capInv caps c m hcap
    (List.insertionSort rDiff entries) _ hinit
  obtain ⟨hsum, hdisj⟩ := hfinal
  rcases hdisj with hle | hex
  · left
    unfold allocPairs
    rw [← hsum]
    exact hle
  · right
    unfold recommend_for_all_fields_with_limits allocPairs
    exact hex

/-- C9 witness: one 10 ha field assigned wheat under a 15 ha wheat cap. -/
theorem allocation_cap_respect_witness :
    sumAssigned "Kvieši"
      (allocPairs [⟨1, "A", 10, [⟨"Kvieši", 6000, 600⟩]⟩] [("Kvieši", 15)] ["Kvieši"]).2 ≤ 15
    ∨ ∃ r ∈ recommend_for_all_fields_with_limits [⟨1, "A", 10, [⟨"Kvieši", 6000, 600⟩]⟩]
        [("Kvieši", 15)] ["Kvieši"],
        r.chosen_crop = some "Kvieši" ∧ r.warnings ≠ [] :=
  allocation_cap_respect [⟨1, "A", 10, [⟨"Kvieši", 6000, 600⟩]⟩] [("Kvieši", 15)] ["Kvieši"]
    "Kvieši" 15 (by simp [lookupStr]) (by norm_num)

/-- The no-cap invariant: no result that chose a capless crop carries a warning. -/
def noCapInv (c : String)
    (state : List (String × ℚ) × List (FieldEntry × AllocationResult)) : Prop :=
  ∀ r ∈ state.2.map Prod.snd, r.chosen_crop = some c → r.warnings = []

theorem fitsCap_of_no_cap (caps : List (String × ℚ)) (c : String)
    (hcap : lookupStr c caps = none) (used : List (String × ℚ)) (area : ℚ) :
    fitsCap caps used area c = true := by
  unfold fitsCap
  rw [hcap]

theorem allocStep_preserves_noCapInv (caps : List (String × ℚ)) (c : String)
    (hcap : lookupStr c caps = none)
    (state : List (String × ℚ) × List (FieldEntry × AllocationResult))
    (entry : FieldEntry) (hinv : noCapInv c state) :
    noCapInv c (allocStep caps state entry) := by
  unfold allocStep
  cases hfind : entry.candidates.find?
      (fun cand => fitsCap caps state.1 entry.area_ha cand.crop_name) with
  | some cand =>
    intro r hr hrc
    rw [List.map_append] at hr
    rcases List.mem_append.mp hr with hr | hr
    · exact hinv r hr hrc
    · simp only [List.map_cons, List.map_nil, List.mem_singleton] at hr
      rw [hr]
  | none =>
    cases hcands : entry.candidates with
    | nil =>
      intro r hr hrc
      rw [List.map_append] at hr
      rcases List.mem_append.mp hr with hr | hr
      · exact hinv r hr hrc
      · simp only [List.map_cons, List.map_nil, List.mem_singleton] at hr
        rw [hr]
    | cons top tl =>
      intro r hr hrc
      rw [List.map_append] at hr
      rcases List.mem_append.mp hr with hr | hr
      · exact hinv r hr hrc
      · exfalso
        simp only [List.map_cons, List.map_nil, List.mem_singleton] at hr
        subst hr
        simp only at hrc
        have htopc : top.crop_name = c := Option.some_inj.mp hrc
        have hnofit := List.find?_eq_none.mp hfind top (by rw [hcands]; exact List.mem_cons_self top tl)
        rw [htopc] at hnofit
        exact hnofit (fitsCap_of_no_cap caps c hcap state.1 entry.area_ha)

theorem foldl_preserves_noCapInv (caps : List (String × ℚ)) (c : String)
    (hcap : lookupStr c caps = none) (entries : List FieldEntry) :
    ∀ state, noCapInv c state →
      noCapInv c (entries.foldl (allocStep caps) state) := by
  induction entries with
  | nil => exact fun state h => h
  | cons e rest ih =>
    intro state h
    exact ih _ (allocStep_preserves_noCapInv caps c hcap state e h)

/-- C10: a crop with no entry in `max_area_per_crop` is treated as having an
infinite cap: the capacity check always succeeds for it, and no allocation
result that chose it ever carries a cap-exceeded warning. -/
theorem no_cap_no_warning (entries : List FieldEntry) (caps : List (String × ℚ))
    (catalog_names : List String) (c : String)
    (hcap : lookupStr c caps = none) :
    (∀ used area, fitsCap caps used area c = true)
    ∧ ∀ r ∈ recommend_for_all_fields_with_limits entries caps catalog_names,
        r.chosen_crop = some c → r.warnings = [] := by
  constructor
  · exact fun used area => fitsCap_of_no_cap caps c hcap used area
  · have hfinal := foldl_preserves_noCapInv caps c hcap
      (List.insertionSort rDiff entries) (catalog_names.map (fun c => (c, 0)), [])
      (by intro r hr hrc; exact absurd hr (by simp))
    unfold recommend_for_all_fields_with_limits allocPairs
    exact hfinal

/-- C10 witness: with no cap table at all, two fields both take wheat and no
warning appears. -/
theorem no_cap_no_warning_witness :
    (∀ used area, fitsCap [] used area "Kvieši" = true)
    ∧ ∀ r ∈ recommend_for_all_fields_with_limits
        [⟨1, "A", 10, [⟨"Kvieši", 6000, 600⟩]⟩, ⟨2, "B", 20, [⟨"Kvieši", 9000, 450⟩]⟩]
        [] ["Kvieši"],
        r.chosen_crop = some "Kvieši" → r.warnings = [] :=
  no_cap_no_warning
    [⟨1, "A", 10, [⟨"Kvieši", 6000, 600⟩]⟩, ⟨2, "B", 20, [⟨"Kvieši", 9000, 450⟩]⟩]
    [] ["Kvieši"] "Kvieši" rfl

end FarmPlanner
